import Mathlib

set_option maxRecDepth 4000

/-!
Verification development for `src/emailReceiver.js` (Windsurf-Tool).

The JavaScript source is shallowly embedded: strings are `List Char`,
JavaScript millisecond timestamps are `Int`, regular expressions are
translated to executable scanning functions that reproduce the JS
leftmost-match backtracking semantics of each concrete regex literal,
and the callback-driven session in `getVerificationCode` is embedded as
an explicit step function on a session-state record.

Modelling notes (documented where they matter):
* `Char.toLower` in Lean lowers ASCII letters only; the vendor tokens,
  pattern literals and flank classes in the source are ASCII (or CJK
  characters unaffected by case), so this is faithful for them.
* `imap.end()` is modelled as synchronously entering the disconnected
  state; the source guards the call with `imap.state !== 'disconnected'`.
-/

namespace EmailReceiver

/-- The JavaScript `\s` character class (WhiteSpace ∪ LineTerminator). -/
def wsP (c : Char) : Bool :=
  c = ' ' || c = '\t' || c = '\n' || c = '\r' || c = '\x0b' || c = '\x0c' ||
  c = ' ' || c = ' ' || (' ' ≤ c && c ≤ ' ') ||
  c = ' ' || c = ' ' || c = ' ' || c = ' ' ||
  c = '　' || c = '﻿'

/-- The digit class `[0-9]` (also written `\d` in the source regexes). -/
def digitB (c : Char) : Bool := '0' ≤ c && c ≤ '9'

/-- The class `[A-Z0-9]` under the `/i` flag: ASCII letters and digits. -/
def alnumP (c : Char) : Bool :=
  ('A' ≤ c && c ≤ 'Z') || ('a' ≤ c && c ≤ 'z') || digitB c

/-- The separator class `[：:\s]` used by the labeled code patterns
    (fullwidth colon, ASCII colon, whitespace). -/
def sepP (c : Char) : Bool := c = '：' || c = ':' || wsP c

/-- The separator class `[：:\s　]` of the Chinese-label patterns. -/
def sepFullP (c : Char) : Bool := sepP c || c = '\u3000'

/-- Per-character model of JavaScript `toLowerCase` (ASCII range). -/
def lowerS (s : List Char) : List Char := s.map Char.toLower

/-- Case-sensitive list prefix test (model of the start of `includes`). -/
def listPre : List Char → List Char → Bool
  | [], _ => true
  | _ :: _, [] => false
  | a :: as, b :: bs => a == b && listPre as bs

/-- JavaScript `hay.includes(needle)`: case-sensitive substring test. -/
def containsSub (needle : List Char) : List Char → Bool
  | [] => needle.isEmpty
  | b :: bs => listPre needle (b :: bs) || containsSub needle bs

/-- Match a literal case-insensitively (the `/i` flag on the source
    regex literals) and return the rest of the input. -/
def ciPre : List Char → List Char → Option (List Char)
  | [], s => some s
  | _ :: _, [] => none
  | a :: as, b :: bs => if a.toLower == b.toLower then ciPre as bs else none

/-- Take exactly `n` characters of class `p`, returning the capture and
    the rest (model of a fixed-width capture group such as `(\d{6})`). -/
def takeCls (p : Char → Bool) : Nat → List Char → Option (List Char × List Char)
  | 0, s => some ([], s)
  | _ + 1, [] => none
  | n + 1, c :: t =>
    if p c then (takeCls p n t).map (fun pr => (c :: pr.1, pr.2)) else none

/-- Greedy `p+`: at least one class character, then the maximal run.
    Deterministic whenever the following token cannot match `p`. -/
def clsPlus (p : Char → Bool) (s : List Char) : Option (List Char) :=
  match s with
  | c :: t => if p c then some (t.dropWhile p) else none
  | [] => none

/-- Leftmost-match scan: try an anchored attempt at every position from
    the left, as JavaScript `String.match` does for an unanchored regex. -/
def scanP (try1 : List Char → Option (List Char)) : List Char → Option (List Char)
  | [] => try1 []
  | c :: r =>
    match try1 (c :: r) with
    | some d => some d
    | none => scanP try1 r

/-- Anchored attempt for pattern 1 of the `patterns` table:
    `/following\s+6\s*-?\s*digit\s+code[^\d]*(\d{6})/i`.
    Every greedy sub-run is followed by a token disjoint from its class,
    so the backtracking search is deterministic. -/
def tryPat1 (s : List Char) : Option (List Char) := do
  let r1 ← ciPre "following".toList s
  let r2 ← clsPlus wsP r1
  let r3 ← ciPre "6".toList r2
  let r4 := r3.dropWhile wsP
  let r5 := match r4 with
    | '-' :: t => t
    | _ => r4
  let r6 := r5.dropWhile wsP
  let r7 ← ciPre "digit".toList r6
  let r8 ← clsPlus wsP r7
  let r9 ← ciPre "code".toList r8
  let r10 := r9.dropWhile (fun c => !digitB c)
  let (d, _) ← takeCls digitB 6 r10
  pure d

/-- Tail `following[^\d]*(\d{6})` shared by both alternatives of
    pattern 2. -/
def pat2Tail (r : List Char) : Option (List Char) := do
  let a ← ciPre "following".toList r
  let b := a.dropWhile (fun c => !digitB c)
  let (d, _) ← takeCls digitB 6 b
  pure d

/-- Anchored attempt for pattern 2:
    `/enter\s+(?:the\s+)?following[^\d]*(\d{6})/i`.
    The optional group `(?:the\s+)?` is tried with content first, as the
    regex engine does. -/
def tryPat2 (s : List Char) : Option (List Char) := do
  let r1 ← ciPre "enter".toList s
  let r2 ← clsPlus wsP r1
  match (do
      let a ← ciPre "the".toList r2
      let b ← clsPlus wsP a
      pat2Tail b) with
  | some d => pure d
  | none => pat2Tail r2

/-- Tail `[：:\s]*([A-Z0-9]{6})` shared by the labeled patterns: the
    greedy separator run cannot eat capture characters, so dropping the
    maximal run is exactly the engine's behaviour. -/
def labeledTail (r : List Char) : Option (List Char) := do
  let r1 := r.dropWhile sepP
  let (d, _) ← takeCls alnumP 6 r1
  pure d

/-- Anchored attempt for pattern 3:
    `/verification\s*code[：:\s]*([A-Z0-9]{6})/i`. -/
def tryPat3 (s : List Char) : Option (List Char) := do
  let r1 ← ciPre "verification".toList s
  let r2 := r1.dropWhile wsP
  let r3 ← ciPre "code".toList r2
  labeledTail r3

/-- Anchored attempt for pattern 4:
    `/verify\s*code[：:\s]*([A-Z0-9]{6})/i`. -/
def tryPat4 (s : List Char) : Option (List Char) := do
  let r1 ← ciPre "verify".toList s
  let r2 := r1.dropWhile wsP
  let r3 ← ciPre "code".toList r2
  labeledTail r3

/-- Anchored attempt for pattern 5:
    `/code\s*(?:is)?[：:\s]+([A-Z0-9]{6})/i`.
    The engine tries the maximal `\s*` run with `is` present first; with
    `is` absent, backtracking over `\s*` makes the attempt succeed
    exactly when a nonempty separator run directly follows `code`
    (because `\s ⊆ [：:\s]`), which is the second branch below. -/
def tryPat5 (s : List Char) : Option (List Char) := do
  let r ← ciPre "code".toList s
  match (do
      let r1 := r.dropWhile wsP
      let r2 ← ciPre "is".toList r1
      let r3 ← clsPlus sepP r2
      let (d, _) ← takeCls alnumP 6 r3
      pure d) with
  | some d => pure d
  | none => do
      let r3 ← clsPlus sepP r
      let (d, _) ← takeCls alnumP 6 r3
      pure d

/-- Anchored attempt for pattern 6:
    `/your\s*code[：:\s]*([A-Z0-9]{6})/i`. -/
def tryPat6 (s : List Char) : Option (List Char) := do
  let r1 ← ciPre "your".toList s
  let r2 := r1.dropWhile wsP
  let r3 ← ciPre "code".toList r2
  labeledTail r3

/-- Anchored attempt for pattern 7:
    `/验证码[：:\s　]*([A-Z0-9]{6})/i`. -/
def tryPat7 (s : List Char) : Option (List Char) := do
  let r1 ← ciPre "验证码".toList s
  let r2 := r1.dropWhile sepFullP
  let (d, _) ← takeCls alnumP 6 r2
  pure d

/-- Anchored attempt for pattern 8:
    `/验证代码[：:\s　]*([A-Z0-9]{6})/i`. -/
def tryPat8 (s : List Char) : Option (List Char) := do
  let r1 ← ciPre "验证代码".toList s
  let r2 := r1.dropWhile sepFullP
  let (d, _) ← takeCls alnumP 6 r2
  pure d

/-- Anchored attempt for pattern 9:
    `/code[：:\s]*([A-Z0-9]{6})(?![0-9])/i`, with the trailing negative
    lookahead `(?![0-9])`. -/
def tryPat9 (s : List Char) : Option (List Char) := do
  let r ← ciPre "code".toList s
  let r1 := r.dropWhile sepP
  let (d, rest) ← takeCls alnumP 6 r1
  match rest with
  | [] => pure d
  | c :: _ => if digitB c then none else pure d

/-- Attempt `([0-9]{6})(?:[^0-9]|$)` at the current position: six digits
    followed by a non-digit or the end of the string. -/
def tryRun10 (s : List Char) : Option (List Char) := do
  let (d, rest) ← takeCls digitB 6 s
  match rest with
  | [] => pure d
  | c :: _ => if digitB c then none else pure d

/-- Scanner for pattern 10: `/(?:^|[^0-9])([0-9]{6})(?:[^0-9]|$)/`.
    `leftOk` records whether the current position is the string start or
    is preceded by a non-digit, which is precisely when the left
    alternative `(?:^|[^0-9])` can succeed for a run starting here. -/
def pat10Go : Bool → List Char → Option (List Char)
  | leftOk, s =>
    match (if leftOk then tryRun10 s else none) with
    | some d => some d
    | none =>
      match s with
      | [] => none
      | c :: t => pat10Go (!digitB c) t

def pat1 : List Char → Option (List Char) := scanP tryPat1
def pat2 : List Char → Option (List Char) := scanP tryPat2
def pat3 : List Char → Option (List Char) := scanP tryPat3
def pat4 : List Char → Option (List Char) := scanP tryPat4
def pat5 : List Char → Option (List Char) := scanP tryPat5
def pat6 : List Char → Option (List Char) := scanP tryPat6
def pat7 : List Char → Option (List Char) := scanP tryPat7
def pat8 : List Char → Option (List Char) := scanP tryPat8
def pat9 : List Char → Option (List Char) := scanP tryPat9
def pat10 : List Char → Option (List Char) := pat10Go true

/-- The verification-code pattern table of `processEmail`, in source
    order (most specific first). -/
def patterns : List (List Char → Option (List Char)) :=
  [pat1, pat2, pat3, pat4, pat5, pat6, pat7, pat8, pat9, pat10]

/-- The extraction loop `for (const pattern of patterns) { ... }`:
    return the capture of the first pattern that matches. -/
def firstSome {α β : Type} : List (α → Option β) → α → Option β
  | [], _ => none
  | f :: fs, x =>
    match f x with
    | some y => some y
    | none => firstSome fs x

/-- Running the full pattern cascade over one text blob. -/
def extractCode (text : List Char) : Option (List Char) := firstSome patterns text

/-- Left flank class `[\s\-:]` of the subject fast-path regex. -/
def subjLeft (c : Char) : Bool := wsP c || c = '-' || c = ':'

/-- Right flank class `[\s\-]` of the subject fast-path regex (note:
    no colon on the right in the source regex). -/
def subjRight (c : Char) : Bool := wsP c || c = '-'

/-- Attempt `([0-9]{6})(?:[\s\-]|$)` at the current position. -/
def runAtSubject (s : List Char) : Option (List Char) := do
  let (d, rest) ← takeCls digitB 6 s
  match rest with
  | [] => pure d
  | c :: _ => if subjRight c then pure d else none

/-- Scanner for the subject fast-path regex
    `/(?:^|[\s\-:])([0-9]{6})(?:[\s\-]|$)/` (used identically at both
    extraction sites). `leftOk` records whether the current position is
    the string start or is preceded by a `[\s\-:]` character, which is
    exactly when `(?:^|[\s\-:])` can succeed for a run starting here. -/
def sfpGo : Bool → List Char → Option (List Char)
  | leftOk, [] => if leftOk then runAtSubject [] else none
  | leftOk, c :: t =>
    match (if leftOk then runAtSubject (c :: t) else none) with
    | some d => some d
    | none => sfpGo (subjLeft c) t

/-- The subject-only fast path `subject.match(/(?:^|[\s\-:])([0-9]{6})(?:[\s\-]|$)/)`. -/
def subjectMatch (s : List Char) : Option (List Char) := sfpGo true s

/-- Decidable description of a qualifying fast-path run: position `i`
    starts six digits whose right context is accepted, and `i` is the
    string start or preceded by a left-flank character.  Used to state
    the leftmost-match property of `subjectMatch`. -/
def qualAux (leftOk : Bool) (s : List Char) : Nat → Bool
  | 0 => leftOk && (runAtSubject s).isSome
  | i + 1 =>
    (match s[i]? with
     | some c => subjLeft c
     | none => false) && (runAtSubject (s.drop (i + 1))).isSome

/-- Qualifying run of the subject fast path at position `i`. -/
def qualAt (s : List Char) (i : Nat) : Bool := qualAux true s i

/-- Claim-side flank condition of C2 as written in the spec: a six-digit
    run flanked on BOTH sides by whitespace, hyphen, or colon (or the
    string edge).  This is the condition the code does not implement for
    the right flank. -/
def claimFlankAt (s : List Char) (i : Nat) : Bool :=
  (match i with
   | 0 => true
   | j + 1 =>
     match s[j]? with
     | some c => subjLeft c
     | none => false) &&
  (match takeCls digitB 6 (s.drop i) with
   | some (_, []) => true
   | some (_, c :: _) => subjLeft c
   | none => false)

/-- The `isWindsurfEmail` provenance test of `processEmail` (body path):
    subject contains windsurf/verify/verification, or sender contains
    windsurf/codeium/exafunction, all case-insensitively. -/
def isWindsurfEmail (subject fromT : List Char) : Bool :=
  containsSub "windsurf".toList (lowerS subject) ||
  containsSub "verify".toList (lowerS subject) ||
  containsSub "verification".toList (lowerS subject) ||
  containsSub "windsurf".toList (lowerS fromT) ||
  containsSub "codeium".toList (lowerS fromT) ||
  containsSub "exafunction".toList (lowerS fromT)

/-- The `isWindsurf` provenance test of the header path inside
    `processSearchResults`: identical to `isWindsurfEmail` except that
    the `verification` subject token is absent. -/
def isWindsurfHeader (subject fromT : List Char) : Bool :=
  containsSub "windsurf".toList (lowerS subject) ||
  containsSub "verify".toList (lowerS subject) ||
  containsSub "windsurf".toList (lowerS fromT) ||
  containsSub "codeium".toList (lowerS fromT) ||
  containsSub "exafunction".toList (lowerS fromT)

/-- `targetEmail.split('@')[0]`: the target's local part. -/
def localPart (target : List Char) : List Char :=
  target.takeWhile (fun c => c ≠ '@')

/-- The header-path recipient test: `to` contains the full target or its
    local part, case-insensitively. -/
def isTargetHeader (target toT : List Char) : Bool :=
  containsSub (lowerS target) (lowerS toT) ||
  containsSub (lowerS (localPart target)) (lowerS toT)

/-- The body-path recipient test used for both the plain-text and HTML
    branches of `processEmail`: `to` contains the full target
    (case-sensitively), or the lowercased body contains the lowercased
    full target or local part. -/
def isTargetBody (target toT body : List Char) : Bool :=
  containsSub target toT ||
  containsSub (lowerS target) (lowerS body) ||
  containsSub (lowerS (localPart target)) (lowerS body)

/-- The JavaScript `.` (dot) character class: everything except line
    terminators. -/
def jsDot (c : Char) : Bool :=
  !(c = '\n' || c = '\r' || c = '\u2028' || c = '\u2029')

/-- Lazy `.*?` up to a closing literal (case-insensitive): consume the
    shortest run of dot-class characters such that the literal follows,
    returning the rest after the literal. -/
def lazyFind (close : List Char) : List Char → Option (List Char)
  | [] => ciPre close []
  | c :: t =>
    match ciPre close (c :: t) with
    | some rest => some rest
    | none => if jsDot c then lazyFind close t else none

/-- One anchored attempt of `<tag[^>]*>.*?</tag>` (the style/script
    block-stripping regexes). -/
def tryBlock (openT closeT : List Char) (s : List Char) : Option (List Char) := do
  let r ← ciPre openT s
  let r2 := r.dropWhile (fun c => c ≠ '>')
  match r2 with
  | '>' :: t => lazyFind closeT t
  | _ => none

/-- Global replacement of `<tag[^>]*>.*?</tag>` by the empty string.
    Fuel-indexed scan: every step consumes at least one input character,
    so fuel `s.length` always suffices. -/
def stripBlocksGo (openT closeT : List Char) : Nat → List Char → List Char
  | 0, s => s
  | _ + 1, [] => []
  | fuel + 1, c :: t =>
    match tryBlock openT closeT (c :: t) with
    | some rest => stripBlocksGo openT closeT fuel rest
    | none => c :: stripBlocksGo openT closeT fuel t

def stripBlocks (openT closeT : List Char) (s : List Char) : List Char :=
  stripBlocksGo openT closeT s.length s

/-- One anchored attempt of `<[^>]+>` (at least one non-`>` character
    between the brackets). -/
def tryTag (s : List Char) : Option (List Char) :=
  match s with
  | '<' :: t =>
    match t with
    | c :: _ =>
      if c = '>' then none
      else
        match t.dropWhile (fun x => x ≠ '>') with
        | '>' :: rest => some rest
        | _ => none
    | [] => none
  | _ => none

/-- Global replacement of `<[^>]+>` by a single space. -/
def stripTagsGo : Nat → List Char → List Char
  | 0, s => s
  | _ + 1, [] => []
  | fuel + 1, c :: t =>
    match tryTag (c :: t) with
    | some rest => ' ' :: stripTagsGo fuel rest
    | none => c :: stripTagsGo fuel t

def stripTags (s : List Char) : List Char := stripTagsGo s.length s

/-- Global replacement of the literal `&nbsp;` by a space. -/
def replaceNbspGo : Nat → List Char → List Char
  | 0, s => s
  | _ + 1, [] => []
  | fuel + 1, c :: t =>
    if listPre "&nbsp;".toList (c :: t) then
      ' ' :: replaceNbspGo fuel ((c :: t).drop 6)
    else c :: replaceNbspGo fuel t

def replaceNbsp (s : List Char) : List Char := replaceNbspGo s.length s

/-- Decimal digit run to a number (the capture of `&#(\d+);`). -/
def digitsToNat (ds : List Char) : Nat :=
  ds.foldl (fun a c => a * 10 + (c.toNat - 48)) 0

/-- One anchored attempt of `&#(\d+);`, replaced by
    `String.fromCharCode(dec)`.  `fromCharCode` truncates to a UTF-16
    code unit (mod 65536); code points that are not valid Lean `Char`s
    (lone surrogates) fall back to `Char.ofNat`'s default. -/
def tryEntity (s : List Char) : Option (Char × List Char) :=
  match s with
  | '&' :: '#' :: t =>
    match t with
    | c :: _ =>
      if digitB c then
        let ds := t.takeWhile digitB
        match t.dropWhile digitB with
        | ';' :: rest => some (Char.ofNat (digitsToNat ds % 65536), rest)
        | _ => none
      else none
    | [] => none
  | _ => none

/-- Global replacement of `&#(\d+);` by the decoded character. -/
def decodeEntitiesGo : Nat → List Char → List Char
  | 0, s => s
  | _ + 1, [] => []
  | fuel + 1, c :: t =>
    match tryEntity (c :: t) with
    | some (d, rest) => d :: decodeEntitiesGo fuel rest
    | none => c :: decodeEntitiesGo fuel t

def decodeEntities (s : List Char) : List Char := decodeEntitiesGo s.length s

/-- Global replacement of `\s+` by a single space: the first character
    of each maximal whitespace run becomes a space. -/
def collapseWsGo : Bool → List Char → List Char
  | _, [] => []
  | prevWs, c :: t =>
    if wsP c then
      (if prevWs then collapseWsGo true t else ' ' :: collapseWsGo true t)
    else c :: collapseWsGo false t

/-- JavaScript `trim()` (same whitespace set as `\s`). -/
def trimWs (s : List Char) : List Char :=
  ((s.dropWhile wsP).reverse.dropWhile wsP).reverse

/-- The `cleanHtml` value computed in `processEmail`'s third scheme:
    strip style blocks, script blocks and tags, decode `&nbsp;` and
    numeric entities, collapse whitespace, trim. -/
def cleanHtml (h : List Char) : List Char :=
  trimWs (collapseWsGo false (decodeEntities (replaceNbsp (stripTags
    (stripBlocks "<script".toList "</script>".toList
      (stripBlocks "<style".toList "</style>".toList h))))))

/-- A fully parsed message as produced by `simpleParser` on a full-body
    fetch: header fields plus optional plain-text and HTML bodies. -/
structure MsgFull where
  subject : List Char
  fromT : List Char
  toT : List Char
  date : Int
  text : Option (List Char)
  html : Option (List Char)
  deriving DecidableEq

/-- Decision outcome of `processEmail` (body stage), as a pure value. -/
inductive BodyDecision where
  | skip
  | found (code : List Char)
  deriving DecidableEq

/-- The HTML branches of `processEmail` (schemes 2 and 3): recipient
    check against the raw HTML, then the cascade over the raw HTML, then
    over the cleaned HTML. -/
def processEmailHtml (target : List Char) (m : MsgFull) : BodyDecision :=
  match m.html with
  | none => .skip
  | some h =>
    if !(isTargetBody target m.toT h) then .skip
    else
      match extractCode h with
      | some c => .found c
      | none =>
        match extractCode (cleanHtml h) with
        | some c => .found c
        | none => .skip

/-- The field-level decision taken by `processEmail` once the
    resolved/seen guards have passed: recency check, provenance check,
    subject fast path, then the text branch (whose failed recipient
    check returns immediately and whose failed extraction falls through
    to the HTML branch), then the HTML branches. -/
def processEmailDecide (now : Int) (target : List Char) (m : MsgFull) : BodyDecision :=
  if now - m.date > 2 * 60 * 1000 then .skip
  else if !(isWindsurfEmail m.subject m.fromT) then .skip
  else
    match subjectMatch m.subject with
    | some c => .found c
    | none =>
      match m.text with
      | some txt =>
        if !(isTargetBody target m.toT txt) then .skip
        else
          match extractCode txt with
          | some c => .found c
          | none => processEmailHtml target m
      | none => processEmailHtml target m

/-- Decision outcome of the header-fields stage inside
    `processSearchResults`. -/
inductive HeaderDecision where
  | skip
  | fastCode (code : List Char)
  | needBody
  deriving DecidableEq

/-- The header-stage decision: recency, header provenance
    (`isWindsurfHeader`), header recipient check, then the subject fast
    path; a subject without a fast-path code requires a full-body
    fetch. -/
def headerDecide (now : Int) (target subject fromT toT : List Char) (date : Int) :
    HeaderDecision :=
  if now - date > 2 * 60 * 1000 then .skip
  else if !(isWindsurfHeader subject fromT) then .skip
  else if !(isTargetHeader target toT) then .skip
  else
    match subjectMatch subject with
    | some c => .fastCode c
    | none => .needBody

/-- End-to-end evaluation of one candidate message along the source's
    control flow: the header stage runs first on the message's header
    fields, and the body stage (`processEmail`) runs only when the
    header stage requested a full-body fetch.  `nowH` and `nowB` are the
    evaluation times of the two stages. -/
def evalMessageFlow (nowH nowB : Int) (target : List Char) (m : MsgFull) :
    Option (List Char) :=
  match headerDecide nowH target m.subject m.fromT m.toT m.date with
  | .skip => none
  | .fastCode c => some c
  | .needBody =>
    match processEmailDecide nowB target m with
    | .found c => some c
    | .skip => none

/-- Failure kinds carried by a rejected promise. -/
inductive ErrKind where
  | timeoutE
  | connectE
  | openBoxE
  deriving DecidableEq

/-- Terminal outcome of one `getVerificationCode` call. -/
inductive Outcome where
  | gotCode (c : List Char)
  | failed (e : ErrKind)
  deriving DecidableEq

/-- The mutable state of one retrieval session, as captured by the
    closure variables of `getVerificationCode`.  `startTime`,
    `maxWait` and `target` are constants of the call but are carried in
    the state so that their immutability is itself a theorem.
    `endCalls` counts transitions into the disconnected state (the
    `imap.end()` teardown). -/
structure SessState where
  startTime : Int
  maxWait : Int
  target : List Char
  isResolved : Bool
  outcome : Option Outcome
  intervalActive : Bool
  imapEnded : Bool
  endCalls : Nat
  currentBox : Option (List Char)
  junkBoxChecked : Bool
  processedEmails : List Nat
  deriving DecidableEq

/-- `processedEmails.add(id)` on a JavaScript `Set`. -/
def insertId (uid : Nat) (l : List Nat) : List Nat :=
  if l.contains uid then l else uid :: l

/-- The `cleanup` closure: clear the poll interval and, when the
    connection is not already disconnected, call `imap.end()` (modelled
    as entering the disconnected state). -/
def cleanup (s : SessState) : SessState :=
  let s1 := { s with intervalActive := false }
  if s1.imapEnded then s1
  else { s1 with imapEnded := true, endCalls := s1.endCalls + 1 }

/-- The `cleanup(); if (!isResolved) { isResolved = true; resolve/reject }`
    idiom used at every terminal site of the source. -/
def resolveWith (o : Outcome) (s : SessState) : SessState :=
  let s1 := cleanup s
  if s1.isResolved then s1
  else { s1 with isResolved := true, outcome := some o }

/-- "INBOX". -/
def inboxName : List Char := "INBOX".toList

/-- The known junk/spam folder alias table of `switchToNextBox`. -/
def junkBoxNames : List (List Char) :=
  ["Junk", "Spam", "Deleted Messages", "Trash", "Bulk Mail",
   "[Gmail]/Spam", "INBOX.Junk", "INBOX.Spam"].map String.toList

/-- The junk-folder lookup: first catalog entry whose lowercased name
    contains some lowercased alias. -/
def findJunkBox (boxes : List (List Char)) : Option (List Char) :=
  boxes.find? (fun b => junkBoxNames.any (fun j => containsSub (lowerS j) (lowerS b)))

/-- `switchToNextBox`, given the discovered folder catalog and whether
    opening the matched folder succeeds: guarded by `isResolved` and
    `junkBoxChecked`, sets `junkBoxChecked` before any folder change,
    and changes `currentBox` only when a junk-like folder exists and
    opens. -/
def switchToNextBox (boxes : List (List Char)) (openOk : Bool) (s : SessState) :
    SessState :=
  if s.isResolved || s.junkBoxChecked then s
  else
    let s1 := { s with junkBoxChecked := true }
    match findJunkBox boxes with
    | none => s1
    | some jb => if openOk then { s1 with currentBox := some jb } else s1

/-- `newResults.sort((a, b) => b - a)`: numeric descending sort. -/
def sortDesc (l : List Nat) : List Nat :=
  List.insertionSort (· ≥ ·) l

/-- The candidate selection of `processSearchResults`: drop already
    processed identifiers, sort the rest descending, keep the newest
    ten. -/
def selectCandidates (processed results : List Nat) : List Nat :=
  (sortDesc (results.filter (fun uid => !processed.contains uid))).take 10

/-- External commands issued by the session (observable side effects
    other than state changes). -/
inductive Eff where
  | searchIssued
  | fetchHeaders (uids : List Nat)
  | fetchFull (uid : Nat)
  deriving DecidableEq

/-- Asynchronous completions delivered to the session's handlers.  The
    immediate `checkMail()` calls after folder open / folder switch are
    delivered by the environment as `tick` events. -/
inductive Event where
  | ready (openOk : Bool)
  | tick (now : Int)
  | searchErr
  | searchResults (results : List Nat)
  | searchEmpty (now : Int) (boxes : List (List Char)) (openOk : Bool)
  | headerParsed (now : Int) (uid : Nat) (subject fromT toT : List Char) (date : Int)
  | fetchErr
  | fullFetchErr (uid : Nat)
  | bodyParsed (now : Int) (uid : Nat) (m : MsgFull)
  | imapErr
  | imapEnd
  deriving DecidableEq

/-- One step of the session state machine: the handler bodies of
    `getVerificationCode`, with each asynchronous completion delivered
    as an `Event`.

    * `ready`: the `imap.once('ready')` handler together with its
      `openBox('INBOX')` callback.
    * `tick`: entry of `checkMail` (deadline check; issuing the search).
    * `searchErr` / `fetchErr`: the logged-and-skipped error branches.
    * `searchResults`: `processSearchResults` on a nonempty result list
      (from either the UNSEEN search or the fallback search).
    * `searchEmpty`: both searches empty or failed — the junk-folder
      switch condition, with the folder catalog and the open result of
      the (atomically modelled) `switchToNextBox`.
    * `headerParsed`: the header-fields `simpleParser` callback.
    * `fullFetchErr`: the full-fetch error handler (marks the id seen).
    * `bodyParsed`: the full-body `simpleParser` callback followed by
      `processEmail`.
    * `imapErr` / `imapEnd`: the connection error/end handlers. -/
def step (s : SessState) (e : Event) : SessState × List Eff :=
  match e with
  | .ready openOk =>
    if openOk then
      ({ s with currentBox := some inboxName, intervalActive := true }, [])
    else (resolveWith (.failed .openBoxE) s, [])
  | .tick now =>
    if s.isResolved then (s, [])
    else if now - s.startTime > s.maxWait then
      (resolveWith (.failed .timeoutE) s, [])
    else if s.currentBox = none then (s, [])
    else (s, [.searchIssued])
  | .searchErr => (s, [])
  | .searchResults results =>
    let sel := selectCandidates s.processedEmails results
    if (results.filter (fun uid => !s.processedEmails.contains uid)).isEmpty then
      (s, [])
    else (s, [.fetchHeaders sel])
  | .searchEmpty now boxes openOk =>
    if s.currentBox = some inboxName && !s.junkBoxChecked then
      if now - s.startTime > 30000 then (switchToNextBox boxes openOk s, [])
      else (s, [])
    else (s, [])
  | .headerParsed now uid subject fromT toT date =>
    if s.isResolved then (s, [])
    else
      match headerDecide now s.target subject fromT toT date with
      | .skip => ({ s with processedEmails := insertId uid s.processedEmails }, [])
      | .fastCode c =>
        (resolveWith (.gotCode c)
          { s with processedEmails := insertId uid s.processedEmails }, [])
      | .needBody => (s, [.fetchFull uid])
  | .fetchErr => (s, [])
  | .fullFetchErr uid =>
    ({ s with processedEmails := insertId uid s.processedEmails }, [])
  | .bodyParsed now uid m =>
    if s.isResolved || s.processedEmails.contains uid then (s, [])
    else
      let s1 := { s with processedEmails := insertId uid s.processedEmails }
      match processEmailDecide now s.target m with
      | .skip => (s1, [])
      | .found c => (resolveWith (.gotCode c) s1, [])
  | .imapErr => (resolveWith (.failed .connectE) s, [])
  | .imapEnd => (cleanup s, [])

/-- The session state at the start of a call (promise executor entry),
    before the connection is established. -/
def initState (startTime maxWait : Int) (target : List Char) : SessState :=
  { startTime := startTime
    maxWait := maxWait
    target := target
    isResolved := false
    outcome := none
    intervalActive := false
    imapEnded := false
    endCalls := 0
    currentBox := none
    junkBoxChecked := false
    processedEmails := [] }

/-- The session invariant backing the exactly-once property: the
    resolved flag agrees with the presence of an outcome, and a
    resolved session has already been torn down (every resolving site
    runs `cleanup` first). -/
def SessInv (s : SessState) : Prop :=
  s.isResolved = s.outcome.isSome ∧ (s.isResolved = true → s.imapEnded = true)

/-- Spec-side provenance predicate, following §4.2 of the spec: subject
    or sender contains one of the vendor identifier substrings
    (windsurf, codeium, exafunction), or the subject contains a generic
    verify/verification token.  Kept separate from the source-derived
    classifiers to compare against them. -/
def provenanceSpec (subject fromT : List Char) : Bool :=
  (["windsurf", "codeium", "exafunction"].map String.toList).any
    (fun v => containsSub v (lowerS subject) || containsSub v (lowerS fromT)) ||
  containsSub "verify".toList (lowerS subject) ||
  containsSub "verification".toList (lowerS subject)

/-! Helper lemmas about teardown and resolution. -/

theorem cleanup_outcome (s : SessState) : (cleanup s).outcome = s.outcome := by
  simp only [cleanup]
  split <;> rfl

theorem cleanup_isResolved (s : SessState) : (cleanup s).isResolved = s.isResolved := by
  simp only [cleanup]
  split <;> rfl

theorem cleanup_imapEnded (s : SessState) : (cleanup s).imapEnded = true := by
  simp only [cleanup]
  split <;> simp_all

theorem cleanup_endCalls_of_ended (s : SessState) (h : s.imapEnded = true) :
    (cleanup s).endCalls = s.endCalls := by
  simp only [cleanup]
  split <;> simp_all

theorem cleanup_startTime (s : SessState) : (cleanup s).startTime = s.startTime := by
  simp only [cleanup]
  split <;> rfl

theorem cleanup_maxWait (s : SessState) : (cleanup s).maxWait = s.maxWait := by
  simp only [cleanup]
  split <;> rfl

theorem cleanup_processed (s : SessState) :
    (cleanup s).processedEmails = s.processedEmails := by
  simp only [cleanup]
  split <;> rfl

theorem cleanup_junk (s : SessState) :
    (cleanup s).junkBoxChecked = s.junkBoxChecked := by
  simp only [cleanup]
  split <;> rfl

theorem cleanup_box (s : SessState) : (cleanup s).currentBox = s.currentBox := by
  simp only [cleanup]
  split <;> rfl

theorem resolveWith_isResolved (o : Outcome) (s : SessState) :
    (resolveWith o s).isResolved = true := by
  simp only [resolveWith]
  split <;> simp_all [cleanup_isResolved]

theorem resolveWith_outcome_of_resolved (o : Outcome) (s : SessState)
    (h : s.isResolved = true) : (resolveWith o s).outcome = s.outcome := by
  simp only [resolveWith]
  have h1 : (cleanup s).isResolved = true := by rw [cleanup_isResolved, h]
  simp [h1, cleanup_outcome]

theorem resolveWith_outcome_of_not (o : Outcome) (s : SessState)
    (h : s.isResolved = false) : (resolveWith o s).outcome = some o := by
  simp only [resolveWith]
  have h1 : (cleanup s).isResolved = false := by rw [cleanup_isResolved, h]
  simp [h1]

theorem resolveWith_imapEnded (o : Outcome) (s : SessState) :
    (resolveWith o s).imapEnded = true := by
  simp only [resolveWith]
  split <;> simp [cleanup_imapEnded]

theorem resolveWith_endCalls_of_ended (o : Outcome) (s : SessState)
    (h : s.imapEnded = true) : (resolveWith o s).endCalls = s.endCalls := by
  simp only [resolveWith]
  split <;> simp [cleanup_endCalls_of_ended, h]

theorem resolveWith_outcome_isSome (o : Outcome) (s : SessState)
    (h : s.isResolved = s.outcome.isSome) :
    ((resolveWith o s).outcome).isSome = true := by
  simp only [resolveWith]
  by_cases hr : s.isResolved = true
  · have h1 : (cleanup s).isResolved = true := by rw [cleanup_isResolved, hr]
    simp [h1, cleanup_outcome, ← h, hr]
  · have hr' : s.isResolved = false := by revert hr; cases s.isResolved <;> simp
    have h1 : (cleanup s).isResolved = false := by rw [cleanup_isResolved, hr']
    simp [h1]

theorem resolveWith_startTime (o : Outcome) (s : SessState) :
    (resolveWith o s).startTime = s.startTime := by
  simp only [resolveWith]
  split <;> simp [cleanup_startTime]

theorem resolveWith_maxWait (o : Outcome) (s : SessState) :
    (resolveWith o s).maxWait = s.maxWait := by
  simp only [resolveWith]
  split <;> simp [cleanup_maxWait]

theorem resolveWith_processed (o : Outcome) (s : SessState) :
    (resolveWith o s).processedEmails = s.processedEmails := by
  simp only [resolveWith]
  split <;> simp [cleanup_processed]

theorem resolveWith_junk (o : Outcome) (s : SessState) :
    (resolveWith o s).junkBoxChecked = s.junkBoxChecked := by
  simp only [resolveWith]
  split <;> simp [cleanup_junk]

theorem resolveWith_box (o : Outcome) (s : SessState) :
    (resolveWith o s).currentBox = s.currentBox := by
  simp only [resolveWith]
  split <;> simp [cleanup_box]

theorem switchToNextBox_of_resolved (boxes : List (List Char)) (ok : Bool)
    (s : SessState) (h : s.isResolved = true) :
    switchToNextBox boxes ok s = s := by
  simp [switchToNextBox, h]

/-- C1: once the session is resolved (`SessInv` records that every
    resolving site has already run `cleanup`), any further completion
    event leaves the outcome unchanged, keeps the session resolved, and
    performs no additional teardown (`endCalls` does not change); the
    invariant is preserved, so this holds for the whole remaining
    lifetime of the session.  Together with `resolveWith` setting the
    outcome only when `isResolved` is still false, the promise is
    settled exactly once. -/
theorem exactlyOnce_resolution (s : SessState) (e : Event)
    (hInv : SessInv s) (hres : s.isResolved = true) :
    (step s e).1.outcome = s.outcome ∧
    (step s e).1.isResolved = true ∧
    (step s e).1.endCalls = s.endCalls ∧
    SessInv (step s e).1 := by
  obtain ⟨hio, hie⟩ := hInv
  have hE : s.imapEnded = true := hie hres
  have hsome : s.outcome.isSome = true := by rw [← hio, hres]
  cases e with
  | ready ok =>
    cases ok with
    | true =>
      refine ⟨rfl, hres, rfl, ?_, fun _ => hE⟩
      simpa [step] using hio
    | false =>
      refine ⟨?_, ?_, ?_, ?_, ?_⟩
      · simpa [step] using resolveWith_outcome_of_resolved _ s hres
      · simpa [step] using resolveWith_isResolved _ s
      · simpa [step] using resolveWith_endCalls_of_ended _ s hE
      · simp [step, resolveWith_isResolved, resolveWith_outcome_of_resolved _ s hres,
          ← hio, hres]
      · simp [step, resolveWith_imapEnded]
  | tick now => simp [step, hres, SessInv, hio, hE, hsome]
  | searchErr => exact ⟨rfl, hres, rfl, hio, fun _ => hE⟩
  | searchResults results =>
    constructor
    · simp [step]; split <;> rfl
    · refine ⟨?_, ?_, ?_, ?_⟩ <;> simp [step, SessInv] <;> split <;>
        simp_all [SessInv, hres, hio, hE]
  | searchEmpty now boxes ok =>
    have hsw : switchToNextBox boxes ok s = s := switchToNextBox_of_resolved _ _ _ hres
    simp only [step]
    split <;> [skip; exact ⟨rfl, hres, rfl, hio, fun _ => hE⟩]
    split <;> [skip; exact ⟨rfl, hres, rfl, hio, fun _ => hE⟩]
    rw [hsw]
    exact ⟨rfl, hres, rfl, hio, fun _ => hE⟩
  | headerParsed now uid subject fromT toT date =>
    simp [step, hres, SessInv, hio, hE, hsome]
  | fetchErr => exact ⟨rfl, hres, rfl, hio, fun _ => hE⟩
  | fullFetchErr uid => exact ⟨rfl, hres, rfl, hio, fun _ => hE⟩
  | bodyParsed now uid m => simp [step, hres, SessInv, hio, hE, hsome]
  | imapErr =>
    simp only [step]
    refine ⟨resolveWith_outcome_of_resolved _ s hres, resolveWith_isResolved _ _,
      resolveWith_endCalls_of_ended _ _ hE, ?_, fun _ => resolveWith_imapEnded _ _⟩
    rw [resolveWith_isResolved, resolveWith_outcome_of_resolved _ s hres, ← hio, hres]
  | imapEnd =>
    simp only [step]
    refine ⟨cleanup_outcome s, ?_, cleanup_endCalls_of_ended s hE, ?_,
      fun _ => cleanup_imapEnded s⟩
    · rw [cleanup_isResolved]; exact hres
    · rw [cleanup_isResolved, cleanup_outcome]; exact hio

/-- A concrete already-resolved session state used by the C1 witness. -/
def sampleResolved : SessState :=
  { startTime := 0
    maxWait := 120000
    target := "t@qq.com".toList
    isResolved := true
    outcome := some (.gotCode "482913".toList)
    intervalActive := false
    imapEnded := true
    endCalls := 1
    currentBox := some inboxName
    junkBoxChecked := false
    processedEmails := [7] }

/-- Witness for C1: a late connection-error event delivered to a
    concrete resolved session changes neither the outcome nor the
    teardown count. -/
theorem exactlyOnce_resolution_witness :
    SessInv sampleResolved ∧ sampleResolved.isResolved = true ∧
    ((step sampleResolved .imapErr).1.outcome = sampleResolved.outcome ∧
     (step sampleResolved .imapErr).1.isResolved = true ∧
     (step sampleResolved .imapErr).1.endCalls = sampleResolved.endCalls ∧
     SessInv (step sampleResolved .imapErr).1) :=
  ⟨⟨by decide, by decide⟩, by decide,
   exactlyOnce_resolution sampleResolved .imapErr ⟨by decide, by decide⟩ (by decide)⟩

theorem cleanup_target (s : SessState) : (cleanup s).target = s.target := by
  simp only [cleanup]
  split <;> rfl

theorem resolveWith_target (o : Outcome) (s : SessState) :
    (resolveWith o s).target = s.target := by
  simp only [resolveWith]
  split <;> simp [cleanup_target]

theorem insertId_mem_mono (uid x : Nat) (l : List Nat) (h : x ∈ l) :
    x ∈ insertId uid l := by
  simp only [insertId]
  split <;> simp [h]

theorem switchToNextBox_processed (boxes : List (List Char)) (ok : Bool)
    (s : SessState) : (switchToNextBox boxes ok s).processedEmails = s.processedEmails := by
  simp only [switchToNextBox]
  split
  · rfl
  · cases findJunkBox boxes <;> simp <;> split <;> rfl

/-- C9: a transient search error, a header-fetch error or a full-fetch
    error never changes the call's outcome (the tick is skipped and no
    external command is issued beyond marking the failed full fetch's
    identifier as seen); when the failures persist to the overall
    deadline, the next tick rejects with exactly the timeout error; and
    the elapsed-time budget (`startTime`, `maxWait`) is never reset by
    any event. -/
theorem transient_failures (s : SessState) (now : Int) (uid : Nat)
    (hres : s.isResolved = false) (hto : now - s.startTime > s.maxWait) :
    step s .searchErr = (s, []) ∧
    step s .fetchErr = (s, []) ∧
    (step s (.fullFetchErr uid)).1.outcome = s.outcome ∧
    (step s (.fullFetchErr uid)).1.isResolved = s.isResolved ∧
    (step s (.tick now)).1.outcome = some (.failed .timeoutE) ∧
    (∀ e : Event, (step s e).1.startTime = s.startTime ∧
      (step s e).1.maxWait = s.maxWait) := by
  refine ⟨rfl, rfl, rfl, rfl, ?_, ?_⟩
  · simp only [step, hres]
    simp [hto, resolveWith_outcome_of_not _ _ hres]
  · intro e
    cases e <;> simp only [step, switchToNextBox] <;>
      (repeat' split) <;>
      simp [resolveWith_startTime, resolveWith_maxWait, cleanup_startTime, cleanup_maxWait]

/-- A concrete unresolved mid-poll session state used by witnesses. -/
def samplePolling : SessState :=
  { startTime := 0
    maxWait := 120000
    target := "t@qq.com".toList
    isResolved := false
    outcome := none
    intervalActive := true
    imapEnded := false
    endCalls := 0
    currentBox := some inboxName
    junkBoxChecked := false
    processedEmails := [5] }

/-- Witness for C9 at a concrete state: errors at 121 s after start
    leave the outcome untouched and the subsequent tick times out. -/
theorem transient_failures_witness :
    step samplePolling .searchErr = (samplePolling, []) ∧
    step samplePolling .fetchErr = (samplePolling, []) ∧
    (step samplePolling (.fullFetchErr 9)).1.outcome = samplePolling.outcome ∧
    (step samplePolling (.fullFetchErr 9)).1.isResolved = samplePolling.isResolved ∧
    (step samplePolling (.tick 121000)).1.outcome = some (.failed .timeoutE) ∧
    (∀ e : Event, (step samplePolling e).1.startTime = samplePolling.startTime ∧
      (step samplePolling e).1.maxWait = samplePolling.maxWait) :=
  transient_failures samplePolling 121000 9 (by decide) (by decide)

/-- C8 (part): every step only grows the seen-set. -/
theorem processed_monotone (s : SessState) (e : Event) (x : Nat)
    (hx : x ∈ s.processedEmails) : x ∈ (step s e).1.processedEmails := by
  cases e <;> simp only [step] <;>
    (repeat' split) <;>
    simp [insertId_mem_mono, hx, resolveWith_processed, cleanup_processed,
      switchToNextBox_processed, insertId] <;>
    (try split) <;> simp [hx]

/-- C8: once an identifier is in the session's seen-set it is excluded
    from every further tick's fetch batch (`selectCandidates` filters
    it out, and the `searchResults` handler only ever fetches that
    batch), delivering a body for it is a complete no-op, and the
    seen-set itself only grows across arbitrary events. -/
theorem dedup_seen_noop (s : SessState) (uid : Nat) (results : List Nat)
    (now : Int) (m : MsgFull)
    (hseen : s.processedEmails.contains uid = true) :
    uid ∉ selectCandidates s.processedEmails results ∧
    (∀ uids, (step s (.searchResults results)).2 = [.fetchHeaders uids] →
      uid ∉ uids) ∧
    step s (.bodyParsed now uid m) = (s, []) ∧
    (∀ (e : Event) (x : Nat), x ∈ s.processedEmails → x ∈ (step s e).1.processedEmails) := by
  have hsel : uid ∉ selectCandidates s.processedEmails results := by
    intro hmem
    have h1 : uid ∈ sortDesc (results.filter (fun u => !s.processedEmails.contains u)) :=
      List.take_subset _ _ hmem
    have h2 : uid ∈ results.filter (fun u => !s.processedEmails.contains u) :=
      (List.perm_insertionSort _ _).mem_iff.mp h1
    have h3 := List.of_mem_filter h2
    simp only [Bool.not_eq_true'] at h3
    rw [hseen] at h3
    exact absurd h3 (by simp)
  refine ⟨hsel, ?_, ?_, fun e x hx => processed_monotone s e x hx⟩
  · intro uids heq
    simp only [step] at heq
    split at heq
    · simp at heq
    · simp at heq
      rw [← heq]
      exact hsel
  · have hmem : uid ∈ s.processedEmails := by simpa using hseen
    simp [step, hmem]

/-- Witness for C8: identifier 5 is already seen in `samplePolling`;
    a new search result containing it is not refetched and a late body
    for it is ignored. -/
theorem dedup_seen_noop_witness :
    (5 : Nat) ∉ selectCandidates samplePolling.processedEmails [5, 9] ∧
    (∀ uids, (step samplePolling (.searchResults [5, 9])).2 = [.fetchHeaders uids] →
      (5 : Nat) ∉ uids) ∧
    step samplePolling (.bodyParsed 1000 5
      { subject := "Windsurf 123456 x".toList
        fromT := "noreply@windsurf.com".toList
        toT := "t@qq.com".toList
        date := 0
        text := none
        html := none }) = (samplePolling, []) ∧
    (∀ (e : Event) (x : Nat), x ∈ samplePolling.processedEmails →
      x ∈ (step samplePolling e).1.processedEmails) :=
  dedup_seen_noop samplePolling 5 [5, 9] 1000 _ (by decide)

/-- C3 counterexample: a session state that has been polling INBOX for
    40 s with no resolution and no prior switch, whose current tick's
    search returns a (already seen, hence useless) message: the claim's
    trigger condition holds, yet no switch is triggered — the state is
    completely unchanged.  The source only evaluates the switch inside
    the empty-search branch. -/
theorem switch_not_triggered_counterexample :
    samplePolling.currentBox = some inboxName ∧
    samplePolling.isResolved = false ∧
    samplePolling.junkBoxChecked = false ∧
    ((40000 : Int) - samplePolling.startTime > 30000) ∧
    step samplePolling (.searchResults [5]) = (samplePolling, []) ∧
    (step samplePolling (.searchResults [5])).1.junkBoxChecked = false := by
  refine ⟨by decide, by decide, by decide, by decide, ?_, by decide⟩
  decide

/-- C3 (amended): the switch to a junk-like folder is triggered exactly
    on a poll tick whose searches (unseen and fallback) both came back
    empty, while the current folder is INBOX, more than 30 s have
    elapsed, the session is unresolved and no switch has happened yet;
    and after any switch (`junkBoxChecked` set), every later
    empty-search tick is a no-op and no event ever changes the current
    folder through the switch path again. -/
theorem switch_condition_amended (s : SessState) (now : Int)
    (boxes : List (List Char)) (openOk : Bool)
    (hbox : s.currentBox = some inboxName) (hjunk : s.junkBoxChecked = false)
    (hres : s.isResolved = false) (helapsed : now - s.startTime > 30000) :
    (step s (.searchEmpty now boxes openOk)).1.junkBoxChecked = true ∧
    (∀ s' : SessState, s'.junkBoxChecked = true →
      (∀ e, (step s' e).1.junkBoxChecked = true) ∧
      (∀ (now' : Int) (boxes' : List (List Char)) (ok' : Bool),
        step s' (.searchEmpty now' boxes' ok') = (s', []))) := by
  constructor
  · simp only [step, hbox, hjunk]
    simp only [switchToNextBox, hres, hjunk]
    simp [helapsed]
    cases hfind : findJunkBox boxes <;> simp [hfind] <;> cases openOk <;> simp
  · intro s' hjunk'
    constructor
    · intro e
      cases e <;> simp only [step, switchToNextBox] <;>
        (repeat' split) <;>
        simp_all [resolveWith_junk, cleanup_junk, hjunk']
    · intro now' boxes' ok'
      simp [step, hjunk']

/-- Witness for C3 (amended): from the concrete 40 s-old polling state,
    an empty-search tick with the catalog INBOX/Sent/Deleted Messages
    does switch (and all later switch attempts are no-ops). -/
theorem switch_condition_amended_witness :
    (step samplePolling (.searchEmpty 40000
      (["INBOX", "Sent", "Deleted Messages"].map String.toList) true)).1.junkBoxChecked
        = true ∧
    (∀ s' : SessState, s'.junkBoxChecked = true →
      (∀ e, (step s' e).1.junkBoxChecked = true) ∧
      (∀ (now' : Int) (boxes' : List (List Char)) (ok' : Bool),
        step s' (.searchEmpty now' boxes' ok') = (s', []))) :=
  switch_condition_amended samplePolling 40000
    (["INBOX", "Sent", "Deleted Messages"].map String.toList) true
    (by decide) (by decide) (by decide) (by decide)

/-- C10: on any tick, the fetch batch contains at most ten
    identifiers, all of them unseen members of the search result,
    sorted in descending (newest-first) order; every unseen result
    outside the batch is no larger than every batch member; and the
    `searchResults` handler fetches exactly this batch (or nothing at
    all when no unseen identifier remains). -/
theorem fetch_batch (processed results : List Nat) (s : SessState) :
    (selectCandidates processed results).length ≤ 10 ∧
    List.Sorted (· ≥ ·) (selectCandidates processed results) ∧
    (∀ x ∈ selectCandidates processed results,
        x ∈ results ∧ processed.contains x = false) ∧
    (∀ y ∈ results, processed.contains y = false →
        y ∉ selectCandidates processed results →
        ∀ x ∈ selectCandidates processed results, x ≥ y) ∧
    (∀ uids, (step s (.searchResults results)).2 = [.fetchHeaders uids] →
        uids = selectCandidates s.processedEmails results) ∧
    ((results.filter (fun u => !s.processedEmails.contains u)).isEmpty = true →
        step s (.searchResults results) = (s, [])) := by
  have hsorted : List.Sorted (· ≥ ·)
      (sortDesc (results.filter (fun u => !processed.contains u))) :=
    List.sorted_insertionSort _ _
  refine ⟨?_, ?_, ?_, ?_, ?_, ?_⟩
  · exact List.length_take_le _ _
  · exact hsorted.sublist (List.take_sublist _ _)
  · intro x hx
    have h1 : x ∈ sortDesc (results.filter (fun u => !processed.contains u)) :=
      List.take_subset _ _ hx
    have h2 : x ∈ results.filter (fun u => !processed.contains u) :=
      (List.perm_insertionSort _ _).mem_iff.mp h1
    refine ⟨List.mem_of_mem_filter h2, ?_⟩
    have h3 := List.of_mem_filter h2
    simpa using h3
  · intro y hy hunseen hnot x hx
    have hyp : y ∉ processed := by simpa using hunseen
    have hyf : y ∈ results.filter (fun u => !processed.contains u) := by
      simp [List.mem_filter, hy, hyp]
    have hys : y ∈ sortDesc (results.filter (fun u => !processed.contains u)) :=
      (List.perm_insertionSort _ _).mem_iff.mpr hyf
    have hys2 : y ∈ (sortDesc (results.filter (fun u => !processed.contains u))).take 10 ++
        (sortDesc (results.filter (fun u => !processed.contains u))).drop 10 := by
      rw [List.take_append_drop]
      exact hys
    have hyd : y ∈ (sortDesc (results.filter (fun u => !processed.contains u))).drop 10 := by
      rcases List.mem_append.mp hys2 with h | h
      · exact absurd h hnot
      · exact h
    exact hsorted.rel_of_mem_take_of_mem_drop hx hyd
  · intro uids heq
    simp only [step] at heq
    split at heq
    · simp at heq
    · simp only [List.cons.injEq] at heq
      have := heq.1
      exact (Eff.fetchHeaders.injEq _ _).mp this.symm
  · intro hempty
    simp only [step, hempty]
    simp

/-- Witness for C10 on a concrete tick: twelve unseen results, the
    batch is the ten largest in descending order. -/
theorem fetch_batch_witness :
    (selectCandidates [5] [3, 5, 12, 7, 1, 2, 9, 15, 4, 6, 8, 11, 14]).length ≤ 10 ∧
    List.Sorted (· ≥ ·) (selectCandidates [5] [3, 5, 12, 7, 1, 2, 9, 15, 4, 6, 8, 11, 14]) ∧
    (∀ x ∈ selectCandidates [5] [3, 5, 12, 7, 1, 2, 9, 15, 4, 6, 8, 11, 14],
        x ∈ [3, 5, 12, 7, 1, 2, 9, 15, 4, 6, 8, 11, 14] ∧ [5].contains x = false) ∧
    (∀ y ∈ [3, 5, 12, 7, 1, 2, 9, 15, 4, 6, 8, 11, 14], [5].contains y = false →
        y ∉ selectCandidates [5] [3, 5, 12, 7, 1, 2, 9, 15, 4, 6, 8, 11, 14] →
        ∀ x ∈ selectCandidates [5] [3, 5, 12, 7, 1, 2, 9, 15, 4, 6, 8, 11, 14], x ≥ y) ∧
    (∀ uids,
        (step samplePolling (.searchResults [3, 5, 12, 7, 1, 2, 9, 15, 4, 6, 8, 11, 14])).2
          = [.fetchHeaders uids] →
        uids = selectCandidates samplePolling.processedEmails
          [3, 5, 12, 7, 1, 2, 9, 15, 4, 6, 8, 11, 14]) ∧
    (([3, 5, 12, 7, 1, 2, 9, 15, 4, 6, 8, 11, 14].filter
        (fun u => !samplePolling.processedEmails.contains u)).isEmpty = true →
        step samplePolling (.searchResults [3, 5, 12, 7, 1, 2, 9, 15, 4, 6, 8, 11, 14])
          = (samplePolling, [])) :=
  fetch_batch [5] [3, 5, 12, 7, 1, 2, 9, 15, 4, 6, 8, 11, 14] samplePolling

/-- The loop over the pattern table returns the capture of the first
    pattern that matches, in list order. -/
theorem firstSome_spec {α β : Type} :
    ∀ (fs : List (α → Option β)) (x : α) (k : Nat) (g : α → Option β) (c : β),
      fs[k]? = some g → g x = some c →
      (∀ j g', j < k → fs[j]? = some g' → g' x = none) →
      firstSome fs x = some c := by
  intro fs
  induction fs with
  | nil => intro x k g c hk; simp at hk
  | cons f rest ih =>
    intro x k g c hk hg hearlier
    cases k with
    | zero =>
      simp only [List.getElem?_cons_zero, Option.some.injEq] at hk
      subst hk
      simp [firstSome, hg]
    | succ k =>
      have hf : f x = none := hearlier 0 f (Nat.succ_pos k) (by simp)
      simp only [List.getElem?_cons_succ] at hk
      simp only [firstSome, hf]
      exact ih x k g c hk hg
        (fun j g' hj hget => hearlier (j + 1) g' (Nat.succ_lt_succ hj) (by simpa using hget))

/-- C5: the cascade returns the capture group of the first pattern in
    the fixed priority table that matches, so any text matched by an
    earlier (labeled) pattern never yields the capture of the bare
    six-digit pattern 10 when the two captures differ. -/
theorem cascade_priority (text : List Char) (k : Nat)
    (g : List Char → Option (List Char)) (c : List Char)
    (hk : patterns[k]? = some g) (hg : g text = some c)
    (hearlier : ∀ j g', j < k → patterns[j]? = some g' → g' text = none) :
    extractCode text = some c ∧
    (∀ d, pat10 text = some d → c ≠ d → extractCode text ≠ some d) := by
  have h1 : extractCode text = some c :=
    firstSome_spec patterns text k g c hk hg hearlier
  refine ⟨h1, ?_⟩
  intro d _ hne heq
  rw [h1] at heq
  exact hne (Option.some.injEq _ _ ▸ heq)

/-- Witness for C5: a text matching both the labeled pattern 3
    (capture `ABC123`) and the bare six-digit pattern 10 (capture
    `482913`) resolves to the labeled capture. -/
theorem cascade_priority_witness :
    extractCode "verification code: ABC123 then 482913 done".toList
      = some "ABC123".toList ∧
    (∀ d, pat10 "verification code: ABC123 then 482913 done".toList = some d →
      "ABC123".toList ≠ d →
      extractCode "verification code: ABC123 then 482913 done".toList ≠ some d) :=
  cascade_priority "verification code: ABC123 then 482913 done".toList 2 pat3
    "ABC123".toList rfl (by decide)
    (by
      intro j g' hj hget
      interval_cases j
      · simp only [patterns, List.getElem?_cons_zero, Option.some.injEq] at hget
        subst hget
        decide
      · simp only [patterns, List.getElem?_cons_succ, List.getElem?_cons_zero,
          Option.some.injEq] at hget
        subst hget
        decide)

/-- C7: a message whose timestamp is more than two minutes before the
    evaluation time is rejected by both classifier stages regardless of
    every other field, and never resolves the session: the end-to-end
    flow yields no code, and the header-stage handler only marks the
    identifier seen and issues no fetch. -/
theorem stale_reject (nowH nowB : Int) (target : List Char) (m : MsgFull)
    (hage : nowH - m.date > 2 * 60 * 1000) (hageB : nowB - m.date > 2 * 60 * 1000) :
    evalMessageFlow nowH nowB target m = none ∧
    processEmailDecide nowB target m = .skip ∧
    (∀ (st : SessState) (uid : Nat),
      (step st (.headerParsed nowH uid m.subject m.fromT m.toT m.date)).1.outcome
        = st.outcome ∧
      (step st (.headerParsed nowH uid m.subject m.fromT m.toT m.date)).2 = []) := by
  have hH : ∀ tgt : List Char,
      headerDecide nowH tgt m.subject m.fromT m.toT m.date = .skip := by
    intro tgt
    simp [headerDecide]
    intro h
    exact absurd h (by omega)
  have hB : processEmailDecide nowB target m = .skip := by
    simp [processEmailDecide]
    intro h
    exact absurd h (by omega)
  refine ⟨?_, hB, ?_⟩
  · simp [evalMessageFlow, hH target]
  · intro st uid
    simp only [step]
    split
    · exact ⟨rfl, rfl⟩
    · simp [hH st.target]

/-- Witness for C7: a perfectly matching message that is 3 minutes old
    is skipped end to end. -/
theorem stale_reject_witness :
    evalMessageFlow 180000 180000 "t@qq.com".toList
      { subject := "Windsurf Verify 482913 now".toList
        fromT := "noreply@windsurf.com".toList
        toT := "t@qq.com".toList
        date := 0
        text := some "code 482913".toList
        html := none } = none ∧
    processEmailDecide 180000 "t@qq.com".toList
      { subject := "Windsurf Verify 482913 now".toList
        fromT := "noreply@windsurf.com".toList
        toT := "t@qq.com".toList
        date := 0
        text := some "code 482913".toList
        html := none } = .skip ∧
    (∀ (st : SessState) (uid : Nat),
      (step st (.headerParsed 180000 uid "Windsurf Verify 482913 now".toList
        "noreply@windsurf.com".toList "t@qq.com".toList 0)).1.outcome = st.outcome ∧
      (step st (.headerParsed 180000 uid "Windsurf Verify 482913 now".toList
        "noreply@windsurf.com".toList "t@qq.com".toList 0)).2 = []) :=
  stale_reject 180000 180000 "t@qq.com".toList
    { subject := "Windsurf Verify 482913 now".toList
      fromT := "noreply@windsurf.com".toList
      toT := "t@qq.com".toList
      date := 0
      text := some "code 482913".toList
      html := none } (by decide) (by decide)

/-- C6: a message whose recipient field contains neither the full
    target address nor its local part (and whose bodies, when present,
    also contain neither) is classified out of scope without error and
    never resolves the session: the end-to-end flow yields no code —
    the header stage rejects on the recipient check before any body
    fetch — and the header-stage handler only marks the identifier
    seen. -/
theorem recipient_reject (nowH nowB : Int) (target : List Char) (m : MsgFull)
    (hto : isTargetHeader target m.toT = false)
    (hbodyT : ∀ b, m.text = some b → isTargetBody target m.toT b = false)
    (hbodyH : ∀ b, m.html = some b → isTargetBody target m.toT b = false) :
    evalMessageFlow nowH nowB target m = none ∧
    (∀ (st : SessState) (uid : Nat), st.target = target →
      (step st (.headerParsed nowH uid m.subject m.fromT m.toT m.date)).1.outcome
        = st.outcome ∧
      (step st (.headerParsed nowH uid m.subject m.fromT m.toT m.date)).2 = []) := by
  have hH : headerDecide nowH target m.subject m.fromT m.toT m.date = .skip := by
    simp only [headerDecide]
    split
    · rfl
    · split
      · rfl
      · simp [hto]
  refine ⟨?_, ?_⟩
  · simp [evalMessageFlow, hH]
  · intro st uid hst
    simp only [step]
    split
    · exact ⟨rfl, rfl⟩
    · rw [hst, hH]
      exact ⟨rfl, rfl⟩

/-- Witness for C6: a message addressed to a different account (whose
    body also lacks the target) never resolves the session. -/
theorem recipient_reject_witness :
    evalMessageFlow 1000 1000 "alice@qq.com".toList
      { subject := "Windsurf Verify 482913".toList
        fromT := "noreply@windsurf.com".toList
        toT := "bob@qq.com".toList
        date := 0
        text := some "your code 482913".toList
        html := none } = none ∧
    (∀ (st : SessState) (uid : Nat), st.target = "alice@qq.com".toList →
      (step st (.headerParsed 1000 uid "Windsurf Verify 482913".toList
        "noreply@windsurf.com".toList "bob@qq.com".toList 0)).1.outcome = st.outcome ∧
      (step st (.headerParsed 1000 uid "Windsurf Verify 482913".toList
        "noreply@windsurf.com".toList "bob@qq.com".toList 0)).2 = []) :=
  recipient_reject 1000 1000 "alice@qq.com".toList
    { subject := "Windsurf Verify 482913".toList
      fromT := "noreply@windsurf.com".toList
      toT := "bob@qq.com".toList
      date := 0
      text := some "your code 482913".toList
      html := none } (by decide)
    (by intro b hb; cases hb; decide)
    (by intro b hb; cases hb)

/-- Subject and sender of a message whose only provenance signal is the
    generic word "verification". -/
def c4Subject : List Char := "Your verification code".toList

def c4From : List Char := "noreply@example.com".toList

/-- A recent, correctly addressed message carrying only the
    "verification" provenance signal. -/
def c4Msg : MsgFull :=
  { subject := c4Subject
    fromT := c4From
    toT := "t@qq.com".toList
    date := 0
    text := some "verification code: ABC123".toList
    html := none }

/-- C4 counterexample: a message whose subject contains the
    "verification" token (and no other provenance signal) is accepted
    by the body-stage classifier but REJECTED by the header-stage
    classifier (`isWindsurf` in `processSearchResults` omits the
    `verification` token, and "verification" does not contain
    "verify"), so at the gatekeeping header stage it is classified out
    of scope, contrary to the claim. -/
theorem provenance_verification_counterexample :
    containsSub "verification".toList (lowerS c4Subject) = true ∧
    isWindsurfHeader c4Subject c4From = false ∧
    isWindsurfEmail c4Subject c4From = true ∧
    headerDecide 0 "t@qq.com".toList c4Subject c4From "t@qq.com".toList 0
      = .skip := by
  refine ⟨by decide, by decide, by decide, by decide⟩

/-- C4 (amended): the body-stage classifier equals the header-stage
    classifier extended with the `verification` subject token; the
    body-stage classifier agrees with the spec's provenance rule
    whenever the subject does not contain `codeium`/`exafunction` (the
    source checks those two vendor identifiers in the sender only); and
    a message rejected by the header-stage classifier is out of scope
    for the whole flow without error — it never yields a code. -/
theorem provenance_amended (subject fromT : List Char) :
    (isWindsurfEmail subject fromT =
      (isWindsurfHeader subject fromT ||
        containsSub "verification".toList (lowerS subject))) ∧
    (containsSub "codeium".toList (lowerS subject) = false →
      containsSub "exafunction".toList (lowerS subject) = false →
      isWindsurfEmail subject fromT = provenanceSpec subject fromT) ∧
    (isWindsurfHeader subject fromT = false →
      ∀ (nowH nowB : Int) (target : List Char) (m : MsgFull),
        m.subject = subject → m.fromT = fromT →
        evalMessageFlow nowH nowB target m = none) := by
  refine ⟨?_, ?_, ?_⟩
  · simp only [isWindsurfEmail, isWindsurfHeader]
    cases containsSub "windsurf".toList (lowerS subject) <;>
      cases containsSub "verify".toList (lowerS subject) <;>
      cases containsSub "verification".toList (lowerS subject) <;>
      cases containsSub "windsurf".toList (lowerS fromT) <;>
      cases containsSub "codeium".toList (lowerS fromT) <;>
      cases containsSub "exafunction".toList (lowerS fromT) <;> rfl
  · intro hcod hexa
    simp only [isWindsurfEmail, provenanceSpec, List.map_cons, List.map_nil,
      List.any_cons, List.any_nil, hcod, hexa]
    cases containsSub "windsurf".toList (lowerS subject) <;>
      cases containsSub "verify".toList (lowerS subject) <;>
      cases containsSub "verification".toList (lowerS subject) <;>
      cases containsSub "windsurf".toList (lowerS fromT) <;>
      cases containsSub "codeium".toList (lowerS fromT) <;>
      cases containsSub "exafunction".toList (lowerS fromT) <;> rfl
  · intro hwin nowH nowB target m hs hf
    have hH : headerDecide nowH target m.subject m.fromT m.toT m.date = .skip := by
      simp only [headerDecide, hs, hf]
      split
      · rfl
      · simp [hwin]
    simp [evalMessageFlow, hH]

/-- Witness for C4 (amended): the concrete "verification"-only message
    is skipped by the whole flow, and the classifier decomposition holds
    on its fields. -/
theorem provenance_amended_witness :
    (isWindsurfEmail c4Subject c4From =
      (isWindsurfHeader c4Subject c4From ||
        containsSub "verification".toList (lowerS c4Subject))) ∧
    evalMessageFlow 0 0 "t@qq.com".toList c4Msg = none :=
  ⟨(provenance_amended c4Subject c4From).1,
   (provenance_amended c4Subject c4From).2.2 (by decide) 0 0
     "t@qq.com".toList c4Msg rfl rfl⟩

/-- C2 counterexample: in `"Windsurf Code:123456:x"` the six-digit run
    at position 14 is flanked by colons on both sides — the claim's
    flank condition (`claimFlankAt`) holds — yet the subject fast path
    does not match (the source regex accepts no colon on the right
    flank), and the header stage instead demands a full-body fetch,
    contrary to "resolves from headers alone without any full-body
    fetch". -/
theorem subject_colon_counterexample :
    claimFlankAt "Windsurf Code:123456:x".toList 14 = true ∧
    subjectMatch "Windsurf Code:123456:x".toList = none ∧
    headerDecide 0 "t@qq.com".toList "Windsurf Code:123456:x".toList
      "noreply@example.com".toList "t@qq.com".toList 0 = .needBody := by
  refine ⟨by decide, by decide, by decide⟩

/-- Shifting a qualifying-run position across the head of the string. -/
theorem qualAux_shift (c : Char) (t : List Char) (leftOk : Bool) (i : Nat) :
    qualAux (subjLeft c) t i = qualAux leftOk (c :: t) (i + 1) := by
  cases i with
  | zero => simp [qualAux]
  | succ j => simp [qualAux]

/-- The subject fast-path scanner returns the run at the least
    qualifying position. -/
theorem sfpGo_eq_of_qual :
    ∀ (i : Nat) (leftOk : Bool) (s : List Char),
      qualAux leftOk s i = true →
      (∀ j, j < i → qualAux leftOk s j = false) →
      sfpGo leftOk s = runAtSubject (s.drop i) := by
  intro i
  induction i with
  | zero =>
    intro leftOk s hq _
    simp only [qualAux, Bool.and_eq_true] at hq
    obtain ⟨hl, hr⟩ := hq
    obtain ⟨d, hd⟩ := Option.isSome_iff_exists.mp hr
    cases s with
    | nil => simp [sfpGo, hl, hd]
    | cons c t => simp [sfpGo, hl, hd]
  | succ i ih =>
    intro leftOk s hq hmin
    cases s with
    | nil =>
      exfalso
      simp [qualAux] at hq
    | cons c t =>
      have h0 : qualAux leftOk (c :: t) 0 = false := hmin 0 (Nat.succ_pos i)
      have hnone : (if leftOk then runAtSubject (c :: t) else none) = none := by
        cases leftOk with
        | false => simp
        | true =>
          simp only [qualAux, Bool.true_and] at h0
          simp only [if_true]
          cases hru : runAtSubject (c :: t) with
          | none => rfl
          | some d => rw [hru] at h0; exact absurd h0 (by simp)
      have hstep : sfpGo leftOk (c :: t) = sfpGo (subjLeft c) t := by
        simp only [sfpGo, hnone]
      rw [hstep]
      have hq2 : qualAux (subjLeft c) t i = true := by
        rw [qualAux_shift c t leftOk i]
        exact hq
      have hmin2 : ∀ j, j < i → qualAux (subjLeft c) t j = false := by
        intro j hj
        rw [qualAux_shift c t leftOk j]
        exact hmin (j + 1) (Nat.succ_lt_succ hj)
      rw [ih (subjLeft c) t hq2 hmin2]
      simp

/-- C2 (amended/corrected): the subject fast path matches a six-digit
    run whose left flank is whitespace, hyphen, colon or the string
    start, and whose RIGHT flank is whitespace, hyphen or the string
    end (no colon on the right, contrary to the claim), returning the
    capture of the leftmost such run; when it matches at the header
    stage, the session resolves from the headers alone and no full-body
    fetch is issued. -/
theorem subject_fastpath_amended (subj : List Char) (i : Nat) (d : List Char)
    (hq : qualAt subj i = true)
    (hmin : ∀ j, j < i → qualAt subj j = false)
    (hd : runAtSubject (subj.drop i) = some d)
    (nowH : Int) (target fromT toT : List Char) (date : Int)
    (hage : ¬(nowH - date > 2 * 60 * 1000))
    (hwin : isWindsurfHeader subj fromT = true)
    (htgt : isTargetHeader target toT = true) :
    subjectMatch subj = some d ∧
    headerDecide nowH target subj fromT toT date = .fastCode d ∧
    (∀ (st : SessState) (uid : Nat), st.isResolved = false → st.target = target →
      (step st (.headerParsed nowH uid subj fromT toT date)).1.outcome
        = some (.gotCode d) ∧
      (step st (.headerParsed nowH uid subj fromT toT date)).2 = []) := by
  have hs : subjectMatch subj = some d := by
    rw [subjectMatch, sfpGo_eq_of_qual i true subj hq hmin, hd]
  have hH : headerDecide nowH target subj fromT toT date = .fastCode d := by
    have hage2 : nowH ≤ 120000 + date := by omega
    simp [headerDecide, hage2, hwin, htgt, hs]
  refine ⟨hs, hH, ?_⟩
  intro st uid hres htgt2
  have hH2 : headerDecide nowH st.target subj fromT toT date = .fastCode d := by
    rw [htgt2]
    exact hH
  simp [step, hres, hH2]
  exact resolveWith_outcome_of_not _ _ rfl

/-- Witness for C2 (amended): subject "Verify 482913 now", leftmost
    qualifying run at position 7, resolves from the headers alone. -/
theorem subject_fastpath_amended_witness :
    subjectMatch "Verify 482913 now".toList = some "482913".toList ∧
    headerDecide 0 "t@qq.com".toList "Verify 482913 now".toList
      "noreply@example.com".toList "t@qq.com".toList 0
      = .fastCode "482913".toList ∧
    (∀ (st : SessState) (uid : Nat), st.isResolved = false →
      st.target = "t@qq.com".toList →
      (step st (.headerParsed 0 uid "Verify 482913 now".toList
        "noreply@example.com".toList "t@qq.com".toList 0)).1.outcome
        = some (.gotCode "482913".toList) ∧
      (step st (.headerParsed 0 uid "Verify 482913 now".toList
        "noreply@example.com".toList "t@qq.com".toList 0)).2 = []) :=
  subject_fastpath_amended "Verify 482913 now".toList 7 "482913".toList
    (by decide) (by decide) (by decide) 0 "t@qq.com".toList
    "noreply@example.com".toList "t@qq.com".toList 0 (by decide) (by decide)
    (by decide)

end EmailReceiver
